import Mathlib

/-!
Verification of the two markdownlint rules of this repository:
`skill-length` (src/tools/markdownlint-skill-length.cjs) and
`skill-frontmatter` (the rule module whose source file name is unknown).

Both rules are pure functions from a document (identifying path `name`,
body `lines`, raw `frontMatterLines`) to a list of diagnostics.  The
embedding below translates the JavaScript source directly:

* JS strings are `String`/`List Char` (inputs are assumed ASCII without
  carriage returns; JS `\s` is modelled by `Char.isWhitespace`, i.e.
  space, tab, CR, LF, and JS `str.length` by the character count).
* The regexes `/^name:\s*(.+)$/m`, `/^description:\s*(.+)$/m` and
  `/^description:\s*>\s*\n([\s\S]*?)(?=\n[a-z-]+:|$)/m` are modelled by
  explicit scanners over the line decomposition of the joined
  frontmatter text, reproducing the semantics of the multiline flag
  (`^`/`$` anchor at line boundaries) and of greedy/lazy backtracking.
* Each `onError` call site is identified by a `Check` tag; the message
  strings are reproduced verbatim.  The severity of a diagnostic is the
  classification documented in the rules themselves: the two
  soft-limit branches of `skill-length` (whose context labels end in
  "(warning)" and which the rule header documents as warnings) are
  warnings, every other diagnostic is an error.
-/

set_option maxRecDepth 8000

namespace SkillLint

/-- Severity of a diagnostic: the recommended-size cases are warnings,
everything else is an error. -/
inductive Severity where
  | error
  | warning
deriving DecidableEq

/-- Identifies which validation check (which `onError` call site in the
source) produced a diagnostic. -/
inductive Check where
  | lineHard
  | lineSoft
  | wordHard
  | wordSoft
  | missingFrontmatter
  | missingName
  | nameKebab
  | nameTooLong
  | nameReserved
  | nameHyphens
  | nameXml
  | nameDirMismatch
  | missingDescription
  | descTooShort
  | descTooLong
  | descXml
deriving DecidableEq

/-- Severity classification of each check, as documented in the rule
sources: the two soft-limit branches of `skill-length` are warnings
("warning via info", context label "(warning)"), all other checks are
errors. -/
def Check.severity : Check → Severity
  | .lineSoft => .warning
  | .wordSoft => .warning
  | _ => .error

/-- The two checks of `skill-length` that concern the line count. -/
def Check.isLineCount : Check → Bool
  | .lineHard => true
  | .lineSoft => true
  | _ => false

/-- The six independent name-format checks run once a `name` field is
present. -/
def Check.isNameCheck : Check → Bool
  | .nameKebab => true
  | .nameTooLong => true
  | .nameReserved => true
  | .nameHyphens => true
  | .nameXml => true
  | .nameDirMismatch => true
  | _ => false

/-- Whether a severity is `error`. -/
def Severity.isError : Severity → Bool
  | .error => true
  | .warning => false

/-- A diagnostic reported through `onError`: the producing check, the
`lineNumber`, `detail` and `context` fields of the source. -/
structure Diagnostic where
  check : Check
  lineNumber : Nat
  detail : String
  context : String
deriving DecidableEq

/-- Severity of a diagnostic, determined by the check that produced it. -/
def Diagnostic.severity (d : Diagnostic) : Severity :=
  d.check.severity

/-- `const MAX_LINES = 500` of markdownlint-skill-length.cjs. -/
def MAX_LINES : Nat := 500

/-- `const MAX_WORDS = 8000` of markdownlint-skill-length.cjs. -/
def MAX_WORDS : Nat := 8000

/-- `const WARNING_LINES = 300` of markdownlint-skill-length.cjs. -/
def WARNING_LINES : Nat := 300

/-- `const WARNING_WORDS = 5000` of markdownlint-skill-length.cjs. -/
def WARNING_WORDS : Nat := 5000

/-- Models `params.name.endsWith("SKILL.md")`, the applicability gate
shared by both rules. -/
def endsWithMarker (name : String) : Bool :=
  "SKILL.md".toList.isSuffixOf name.toList

/-- Counts the maximal runs of non-whitespace characters; the boolean
argument records whether the previous character was part of a run.
Models `content.split(/\s+/).filter(Boolean).length`. -/
def countWordsAux : Bool → List Char → Nat
  | _, [] => 0
  | inWord, c :: cs =>
    if c.isWhitespace then countWordsAux false cs
    else (if inWord then 0 else 1) + countWordsAux true cs

/-- Word count of the body: the lines are joined with newlines and the
non-empty whitespace-separated tokens are counted
(`lines.join("\n").split(/\s+/).filter(Boolean).length`). -/
def wordCount (lines : List String) : Nat :=
  countWordsAux false (List.intercalate ['\n'] (lines.map String.toList))

/-- The hard line-limit diagnostic of `skill-length`. -/
def lineHardDiag (t maxL : Nat) : Diagnostic :=
  { check := .lineHard, lineNumber := 1,
    detail := "Line count: " ++ toString t ++ " (max: " ++ toString maxL ++
      "). Move detailed content to references/ subdirectory.",
    context := toString t ++ " lines" }

/-- The soft line-limit diagnostic of `skill-length`. -/
def lineSoftDiag (t warnL : Nat) : Diagnostic :=
  { check := .lineSoft, lineNumber := 1,
    detail := "Line count: " ++ toString t ++ " (recommended: <" ++ toString warnL ++
      "). Consider moving content to references/.",
    context := toString t ++ " lines (warning)" }

/-- The hard word-limit diagnostic of `skill-length`. -/
def wordHardDiag (w maxW : Nat) : Diagnostic :=
  { check := .wordHard, lineNumber := 1,
    detail := "Word count: " ++ toString w ++ " (max: " ++ toString maxW ++
      "). Move detailed content to references/ subdirectory.",
    context := toString w ++ " words" }

/-- The soft word-limit diagnostic of `skill-length`. -/
def wordSoftDiag (w warnW : Nat) : Diagnostic :=
  { check := .wordSoft, lineNumber := 1,
    detail := "Word count: " ++ toString w ++ " (recommended: <" ++ toString warnW ++
      "). Consider moving content to references/.",
    context := toString w ++ " words (warning)" }

/-- The line-count branch of `skill-length`: error above the hard
limit, otherwise warning above the soft limit. -/
def lineLimitCheck (maxL warnL totalLines : Nat) : List Diagnostic :=
  if totalLines > maxL then [lineHardDiag totalLines maxL]
  else if totalLines > warnL then [lineSoftDiag totalLines warnL]
  else []

/-- The word-count branch of `skill-length`: error above the hard
limit, otherwise warning above the soft limit. -/
def wordLimitCheck (maxW warnW words : Nat) : List Diagnostic :=
  if words > maxW then [wordHardDiag words maxW]
  else if words > warnW then [wordSoftDiag words warnW]
  else []

/-- The `skill-length` rule with the four limits as parameters (the
source hard-codes them as module constants): gate on the filename
marker, then run the line check followed by the word check. -/
def skillLengthLimits (maxL warnL maxW warnW : Nat)
    (name : String) (lines frontMatterLines : List String) : List Diagnostic :=
  if endsWithMarker name then
    lineLimitCheck maxL warnL (frontMatterLines.length + lines.length) ++
    wordLimitCheck maxW warnW (wordCount lines)
  else []

/-- The `skill-length` rule at the constants of the source. -/
def skillLength (name : String) (lines frontMatterLines : List String) : List Diagnostic :=
  skillLengthLimits MAX_LINES WARNING_LINES MAX_WORDS WARNING_WORDS name lines frontMatterLines

/-- The single-quote character, written by code point to keep the
development ASCII-clean. -/
def squote : Char := Char.ofNat 39

/-- Whether a character is one of the two quote characters of the class
`["']`. -/
def isQuoteChar (c : Char) : Bool :=
  c = '"' || c = squote

/-- Drops one leading quote character if present. -/
def dropLeadQuote : List Char → List Char
  | [] => []
  | c :: rest => if isQuoteChar c then rest else c :: rest

/-- Models `s.replace(/^["']|["']$/g, "")`: removes at most one leading
and at most one trailing quote character, independently (they need not
match each other). -/
def stripQuotes (s : String) : String :=
  String.mk ((dropLeadQuote ((dropLeadQuote s.toList).reverse)).reverse)

/-- Removes leading and trailing whitespace, modelling JS `trim()`. -/
def trimChars (cs : List Char) : List Char :=
  ((cs.dropWhile Char.isWhitespace).reverse.dropWhile Char.isWhitespace).reverse

/-- Splits a character list at every occurrence of the separator;
`splitListOn sep` applied to the concatenation of lines joined by `sep`
recovers the lines. -/
def splitListOn (sep : Char) : List Char → List (List Char)
  | [] => [[]]
  | c :: rest =>
    if c = sep then [] :: splitListOn sep rest
    else
      match splitListOn sep rest with
      | l :: ls => (c :: l) :: ls
      | [] => [[c]]

/-- The lines of the frontmatter text the rule matches its regexes
against: the raw frontmatter lines minus the `---` delimiter lines,
joined with newlines (`frontMatterLines.filter(l => l !== "---").join("\n")`),
then re-split at the newlines (so that stray newlines inside a supplied
line are still treated as line breaks by the multiline regexes). -/
def fmStream (fm : List String) : List (List Char) :=
  splitListOn '\n' (List.intercalate ['\n'] ((fm.filter (fun l => l != "---")).map String.toList))

/-- The text that follows a given line in the joined frontmatter: empty
for the last line, otherwise a newline followed by the remaining lines
joined with newlines. -/
def joinRest : List (List Char) → List Char
  | [] => []
  | l :: ls => '\n' :: List.intercalate ['\n'] (l :: ls)

/-- Models `path.basename(path.dirname(p))` of Node for slash-separated
paths (the rule derives the expected skill name from the document's
containing directory). -/
def parentDirName (p : String) : String :=
  let comps := splitListOn '/' p.toList
  if comps.length ≥ 2 then String.mk (comps.getD (comps.length - 2) []) else "."

/-- Given the character stream that follows a `key:` occurrence at a
line start, computes the trimmed capture of `^key:\s*(.+)$` under the
multiline flag, or `none` when the pattern does not match there:
greedy `\s*` may span newlines; `.+` then captures at least one
non-newline character up to the end of its line ($ anchors at line
ends); the caller's `.trim()` is applied. -/
def valueAfterKey (cs : List Char) : Option String :=
  match cs.dropWhile Char.isWhitespace with
  | c :: rest =>
    some (String.mk (trimChars ((c :: rest).takeWhile (fun d => d ≠ '\n'))))
  | [] =>
    if cs.any (fun c => decide (c ≠ '\n')) then some "" else none

/-- Scans the frontmatter lines for the first line starting with `key`
at which `^key:\s*(.+)$/m` matches, returning the trimmed capture;
a line where the key occurs but the pattern fails is skipped, as the
regex engine continues at later positions. -/
def findKey (key : List Char) : List (List Char) → Option String
  | [] => none
  | l :: ls =>
    match (if key.isPrefixOf l then valueAfterKey (l.drop key.length ++ joinRest ls) else none) with
    | some v => some v
    | none => findKey key ls

/-- The characters of `name:`. -/
def nameKey : List Char := "name:".toList

/-- The characters of `description:`. -/
def descKey : List Char := "description:".toList

/-- Given the stream right after the `>` of a block-scalar header,
computes the raw capture of `\s*\n([\s\S]*?)(?=\n[a-z-]+:|$)` under the
multiline flag, or `none` when there is no newline in the whitespace
run after `>`.  Greedy `\s*\n` consumes up to the last newline of the
run; the lazy capture then stops at the first position where the
lookahead holds, which (since `$` matches at every line end under the
multiline flag) is the end of the very next line: the capture is that
single line. -/
def blockValueAt (rest : List Char) : Option String :=
  let w := rest.takeWhile Char.isWhitespace
  if w.contains '\n' then
    some (String.mk ((w.reverse.takeWhile (fun c => c ≠ '\n')).reverse ++
      (rest.dropWhile Char.isWhitespace).takeWhile (fun c => c ≠ '\n')))
  else none

/-- Matches `description:\s*>` from the position right after a
`description:` key at a line start: greedy `\s*` (possibly spanning
newlines) must be followed by `>`, then the block capture follows. -/
def blockCheck (cs : List Char) : Option String :=
  match cs.dropWhile Char.isWhitespace with
  | '>' :: rest => blockValueAt rest
  | _ => none

/-- Scans the frontmatter lines for the first line at which
`/^description:\s*>\s*\n([\s\S]*?)(?=\n[a-z-]+:|$)/m` matches,
returning the raw capture. -/
def findBlock : List (List Char) → Option String
  | [] => none
  | l :: ls =>
    match (if descKey.isPrefixOf l then blockCheck (l.drop descKey.length ++ joinRest ls) else none) with
    | some v => some v
    | none => findBlock ls

/-- Models `replace(/\n\s*/g, " ")`: each newline together with the
whitespace run following it is replaced by a single space.  The boolean
argument records whether the scanner is inside such a run. -/
def collapseAux : Bool → List Char → List Char
  | _, [] => []
  | true, c :: cs =>
    if c.isWhitespace then collapseAux true cs else c :: collapseAux false cs
  | false, c :: cs =>
    if c = '\n' then ' ' :: collapseAux true cs else c :: collapseAux false cs

/-- Replaces every newline-led whitespace run by a single space. -/
def collapseNlWs (cs : List Char) : List Char :=
  collapseAux false cs

/-- Models `/^[a-z][a-z0-9-]*$/.test(name)`. -/
def isKebab (s : String) : Bool :=
  match s.toList with
  | [] => false
  | c :: rest => c.isLower && rest.all (fun d => d.isLower || d.isDigit || d = '-')

/-- JS word characters `[A-Za-z0-9_]`, for the `\b` boundaries of the
reserved-word regex. -/
def isWordChar (c : Char) : Bool :=
  c.isAlpha || c.isDigit || c = '_'

/-- Whether the character list starts with the given word followed by a
word boundary. -/
def startsWord (w cs : List Char) : Bool :=
  w.isPrefixOf cs &&
    (match cs.drop w.length with
     | [] => true
     | d :: _ => !isWordChar d)

/-- Scans for an occurrence of `anthropic` or `claude` preceded by a
word boundary; the boolean argument records whether the previous
character was a word character. -/
def hasReservedAux : Bool → List Char → Bool
  | _, [] => false
  | prevIsWord, c :: cs =>
    (!prevIsWord && (startsWord "anthropic".toList (c :: cs) ||
      startsWord "claude".toList (c :: cs))) ||
    hasReservedAux (isWordChar c) cs

/-- Models `/\b(anthropic|claude)\b/i.test(name)`: a case-insensitive
whole-word match against the fixed reserved set. -/
def hasReserved (s : String) : Bool :=
  hasReservedAux false (s.toList.map Char.toLower)

/-- Whether `n` occurs as a contiguous sublist of the second argument. -/
def listContains (n : List Char) : List Char → Bool
  | [] => n.isEmpty
  | c :: rest => n.isPrefixOf (c :: rest) || listContains n rest

/-- Models `/--/.test(name)`: the string contains two consecutive
hyphens. -/
def hasDoubleHyphen (cs : List Char) : Bool :=
  listContains ['-', '-'] cs

/-- Models `/<[^>]+>/.test(s)`: some `<` is followed by at least one
non-`>` character and then a `>`. -/
def hasXmlTag : List Char → Bool
  | [] => false
  | c :: rest =>
    (c = '<' &&
      (let upto := rest.takeWhile (fun d => d ≠ '>')
       !upto.isEmpty && decide (upto.length < rest.length))) ||
    hasXmlTag rest

/-- The extracted, quote-stripped skill name
(`nameMatch[1].trim().replace(/^["']|["']$/g, "")`), or `none` when the
name pattern matches nowhere. -/
def extractedName (stream : List (List Char)) : Option String :=
  (findKey nameKey stream).map stripQuotes

/-- The extracted description: the block-scalar capture (joined and
trimmed) takes precedence; otherwise the single-line capture, trimmed
and quote-stripped; `none` when neither pattern matches. -/
def extractedDescription (stream : List (List Char)) : Option String :=
  match findBlock stream with
  | some v => some (String.mk (trimChars (collapseNlWs v.toList)))
  | none => (findKey descKey stream).map stripQuotes

/-- The missing-frontmatter diagnostic. -/
def missingFrontmatterDiag : Diagnostic :=
  { check := .missingFrontmatter, lineNumber := 1,
    detail := "SKILL.md must have YAML frontmatter (---)",
    context := "Missing frontmatter" }

/-- The missing-name diagnostic. -/
def missingNameDiag : Diagnostic :=
  { check := .missingName, lineNumber := 2,
    detail := "Frontmatter must include \"name\" field",
    context := "Missing name" }

/-- The invalid-kebab-case diagnostic. -/
def kebabDiag (nm : String) : Diagnostic :=
  { check := .nameKebab, lineNumber := 2,
    detail := "Skill name must be kebab-case: \"" ++ nm ++ "\"",
    context := "Invalid name format" }

/-- The name-too-long diagnostic. -/
def nameLongDiag (nm : String) : Diagnostic :=
  { check := .nameTooLong, lineNumber := 2,
    detail := "Skill name exceeds 64 characters (current: " ++ toString nm.length ++ ")",
    context := "Name too long" }

/-- The reserved-word diagnostic. -/
def reservedDiag (nm : String) : Diagnostic :=
  { check := .nameReserved, lineNumber := 2,
    detail := "Skill name cannot contain reserved words \"anthropic\" or \"claude\": \"" ++
      nm ++ "\"",
    context := "Reserved word in name" }

/-- The consecutive-hyphens diagnostic. -/
def hyphenDiag (nm : String) : Diagnostic :=
  { check := .nameHyphens, lineNumber := 2,
    detail := "Skill name cannot contain consecutive hyphens: \"" ++ nm ++ "\"",
    context := "Consecutive hyphens" }

/-- The XML-tag-in-name diagnostic. -/
def xmlNameDiag (nm : String) : Diagnostic :=
  { check := .nameXml, lineNumber := 2,
    detail := "Skill name cannot contain XML tags: \"" ++ nm ++ "\"",
    context := "XML tag in name" }

/-- The name/directory-mismatch diagnostic. -/
def dirMismatchDiag (nm dir : String) : Diagnostic :=
  { check := .nameDirMismatch, lineNumber := 2,
    detail := "Skill name \"" ++ nm ++ "\" must match directory name \"" ++ dir ++ "\"",
    context := "Name/directory mismatch" }

/-- The missing-description diagnostic. -/
def missingDescriptionDiag : Diagnostic :=
  { check := .missingDescription, lineNumber := 2,
    detail := "Frontmatter must include \"description\" field",
    context := "Missing description" }

/-- The description-too-short diagnostic. -/
def descShortDiag (len : Nat) : Diagnostic :=
  { check := .descTooShort, lineNumber := 2,
    detail := "Description should be at least 20 characters (current: " ++ toString len ++ ")",
    context := "Description too short" }

/-- The description-too-long diagnostic. -/
def descLongDiag (len : Nat) : Diagnostic :=
  { check := .descTooLong, lineNumber := 2,
    detail := "Description exceeds 1024 characters (current: " ++ toString len ++ ")",
    context := "Description too long" }

/-- The XML-tag-in-description diagnostic. -/
def descXmlDiag : Diagnostic :=
  { check := .descXml, lineNumber := 2,
    detail := "Description cannot contain XML tags",
    context := "XML tag in description" }

/-- The six independent format checks run on a present name, in source
order: kebab-case, length, reserved words, consecutive hyphens, XML
tags, directory match. -/
def nameChecks (nm dir : String) : List Diagnostic :=
  (if isKebab nm then [] else [kebabDiag nm]) ++
  (if nm.length > 64 then [nameLongDiag nm] else []) ++
  (if hasReserved nm then [reservedDiag nm] else []) ++
  (if hasDoubleHyphen nm.toList then [hyphenDiag nm] else []) ++
  (if hasXmlTag nm.toList then [xmlNameDiag nm] else []) ++
  (if nm = dir then [] else [dirMismatchDiag nm dir])

/-- The three checks run on a present description: minimum length,
maximum length, XML tags. -/
def descChecks (d : String) : List Diagnostic :=
  (if d.length < 20 then [descShortDiag d.length] else []) ++
  (if d.length > 1024 then [descLongDiag d.length] else []) ++
  (if hasXmlTag d.toList then [descXmlDiag] else [])

/-- The name section of `skill-frontmatter`: a missing-name error when
the pattern matches nowhere, otherwise the six format checks. -/
def namePart (o : Option String) (dir : String) : List Diagnostic :=
  match o with
  | none => [missingNameDiag]
  | some nm => nameChecks nm dir

/-- The description section of `skill-frontmatter`: a
missing-description error when neither pattern matches, otherwise the
three description checks. -/
def descPart (o : Option String) : List Diagnostic :=
  match o with
  | none => [missingDescriptionDiag]
  | some d => descChecks d

/-- The `skill-frontmatter` rule: gate on the filename marker; an empty
frontmatter block short-circuits to the missing-frontmatter error;
otherwise the name checks run followed by the description checks. -/
def skillFrontmatter (name : String) (frontMatterLines : List String) : List Diagnostic :=
  if endsWithMarker name then
    if frontMatterLines.length = 0 then [missingFrontmatterDiag]
    else
      namePart (extractedName (fmStream frontMatterLines)) (parentDirName name) ++
      descPart (extractedDescription (fmStream frontMatterLines))
  else []

/-! ### Helper lemmas -/

/-- Diagnostics of the word-count branch are never line-count
diagnostics. -/
lemma wordLimitCheck_not_lineCount (a b w : Nat) (d : Diagnostic)
    (hd : d ∈ wordLimitCheck a b w) : d.check.isLineCount = false := by
  unfold wordLimitCheck at hd
  split at hd
  · simp at hd; subst hd; rfl
  · split at hd
    · simp at hd; subst hd; rfl
    · simp at hd

/-- Every diagnostic of `nameChecks` carries one of the six
name-format checks. -/
lemma mem_nameChecks_isNameCheck (nm dir : String) (d : Diagnostic)
    (hd : d ∈ nameChecks nm dir) : d.check.isNameCheck = true := by
  unfold nameChecks at hd
  simp only [List.mem_append] at hd
  rcases hd with (((((h | h) | h) | h) | h) | h) <;>
    (split at h <;>
      simp_all [kebabDiag, nameLongDiag, reservedDiag, hyphenDiag,
        xmlNameDiag, dirMismatchDiag, Check.isNameCheck])

/-- Every diagnostic of the description section carries one of the four
description-related checks. -/
lemma mem_descPart_check (o : Option String) (d : Diagnostic)
    (hd : d ∈ descPart o) :
    d.check = Check.missingDescription ∨ d.check = Check.descTooShort ∨
    d.check = Check.descTooLong ∨ d.check = Check.descXml := by
  unfold descPart at hd
  split at hd
  · simp at hd; subst hd; left; rfl
  · rename_i s
    unfold descChecks at hd
    simp only [List.mem_append] at hd
    rcases hd with (h | h) | h <;>
      (split at h <;>
        simp_all [descShortDiag, descLongDiag, descXmlDiag])

/-- The description section contributes no name-format diagnostics. -/
lemma descPart_filter_nameCheck (o : Option String) :
    (descPart o).filter (fun d => d.check.isNameCheck) = [] := by
  rw [List.filter_eq_nil_iff]
  intro d hd
  rcases mem_descPart_check o d hd with h | h | h | h <;>
    simp [h, Check.isNameCheck]

/-- Lines that do not start with the key are skipped by the scanner. -/
lemma findKey_skip (key : List Char) (pre rest : List (List Char))
    (h : ∀ l ∈ pre, key.isPrefixOf l = false) :
    findKey key (pre ++ rest) = findKey key rest := by
  induction pre with
  | nil => rfl
  | cons l ls ih =>
    have h1 : key.isPrefixOf l = false := h l (by simp)
    have h2 : ∀ m ∈ ls, key.isPrefixOf m = false := fun m hm => h m (by simp [hm])
    simpa [findKey, h1] using ih h2

/-- Lines that do not start with `description:` are skipped by the
block-scalar scanner. -/
lemma findBlock_skip (pre rest : List (List Char))
    (h : ∀ l ∈ pre, descKey.isPrefixOf l = false) :
    findBlock (pre ++ rest) = findBlock rest := by
  induction pre with
  | nil => rfl
  | cons l ls ih =>
    have h1 : descKey.isPrefixOf l = false := h l (by simp)
    have h2 : ∀ m ∈ ls, descKey.isPrefixOf m = false := fun m hm => h m (by simp [hm])
    simpa [findBlock, h1] using ih h2

/-! ### Claim theorems -/

/-- C5: for every document whose identifying name does not end with
`SKILL.md`, both rules produce zero diagnostics, regardless of the
document's content, frontmatter, or the four length limits. -/
theorem c5_marker_gate (name : String) (body fm : List String)
    (maxL warnL maxW warnW : Nat) (h : endsWithMarker name = false) :
    skillLengthLimits maxL warnL maxW warnW name body fm = [] ∧
    skillFrontmatter name fm = [] := by
  constructor
  · simp [skillLengthLimits, h]
  · simp [skillFrontmatter, h]

/-- Witness for C5 at a concrete non-SKILL.md document. -/
theorem c5_marker_gate_witness :
    endsWithMarker "docs/README.md" = false ∧
    (skillLengthLimits 1 1 1 1 "docs/README.md" ["a b c"] ["---"] = [] ∧
     skillFrontmatter "docs/README.md" ["---"] = []) :=
  ⟨by decide, c5_marker_gate "docs/README.md" ["a b c"] ["---"] 1 1 1 1 (by decide)⟩

/-- C6: for every checked document whose frontmatter line sequence is
empty, the frontmatter rule emits exactly the missing-frontmatter error
and nothing else (no name or description diagnostics). -/
theorem c6_missing_frontmatter (name : String) (fm : List String)
    (hmark : endsWithMarker name = true) (hfm : fm.length = 0) :
    skillFrontmatter name fm = [missingFrontmatterDiag] := by
  simp [skillFrontmatter, hmark, hfm]

/-- Witness for C6 at a concrete document with no frontmatter. -/
theorem c6_missing_frontmatter_witness :
    endsWithMarker "skills/foo/SKILL.md" = true ∧
    ([] : List String).length = 0 ∧
    skillFrontmatter "skills/foo/SKILL.md" [] = [missingFrontmatterDiag] :=
  ⟨by decide, rfl, c6_missing_frontmatter "skills/foo/SKILL.md" [] (by decide) rfl⟩

/-- C3: for every checked document with
`WARNING_LINES < totalLines ≤ MAX_LINES`, the length rule emits exactly
one line-count diagnostic, the soft-limit one, whose severity is
warning (never error). -/
theorem c3_soft_line_warning (name : String) (body fm : List String)
    (hmark : endsWithMarker name = true)
    (h1 : WARNING_LINES < fm.length + body.length)
    (h2 : fm.length + body.length ≤ MAX_LINES) :
    (skillLength name body fm).filter (fun d => d.check.isLineCount) =
      [lineSoftDiag (fm.length + body.length) WARNING_LINES] ∧
    (lineSoftDiag (fm.length + body.length) WARNING_LINES).severity = Severity.warning := by
  have hno : ¬ fm.length + body.length > MAX_LINES := by
    have h2' : fm.length + body.length ≤ 500 := h2
    omega
  have e1 : lineLimitCheck MAX_LINES WARNING_LINES (fm.length + body.length) =
      [lineSoftDiag (fm.length + body.length) WARNING_LINES] := by
    unfold lineLimitCheck
    rw [if_neg hno, if_pos h1]
  have e2 : (wordLimitCheck MAX_WORDS WARNING_WORDS (wordCount body)).filter
      (fun d => d.check.isLineCount) = [] := by
    rw [List.filter_eq_nil_iff]
    intro d hd
    simp [wordLimitCheck_not_lineCount _ _ _ d hd]
  refine ⟨?_, rfl⟩
  simp only [skillLength, skillLengthLimits, hmark, if_true, List.filter_append, e1, e2]
  simp [lineSoftDiag, Check.isLineCount]

/-- Witness for C3 at a concrete 301-line document. -/
theorem c3_soft_line_warning_witness :
    endsWithMarker "skills/foo/SKILL.md" = true ∧
    WARNING_LINES < (List.replicate 4 "x").length + (List.replicate 297 "y").length ∧
    (List.replicate 4 "x").length + (List.replicate 297 "y").length ≤ MAX_LINES ∧
    ((skillLength "skills/foo/SKILL.md" (List.replicate 297 "y")
        (List.replicate 4 "x")).filter (fun d => d.check.isLineCount) =
      [lineSoftDiag ((List.replicate 4 "x").length + (List.replicate 297 "y").length)
        WARNING_LINES] ∧
     (lineSoftDiag ((List.replicate 4 "x").length + (List.replicate 297 "y").length)
        WARNING_LINES).severity = Severity.warning) :=
  ⟨by decide, by simp [WARNING_LINES], by simp [MAX_LINES],
   c3_soft_line_warning "skills/foo/SKILL.md" (List.replicate 297 "y")
     (List.replicate 4 "x") (by decide) (by simp [WARNING_LINES]) (by simp [MAX_LINES])⟩

/-- C4: the length-error boundary is strictly-greater-than: at
`totalLines = MAX_LINES` no line-count error is emitted, and at
`totalLines = MAX_LINES + 1` exactly one line-count error is emitted,
whose message references the hard limit via `(max: 500)`. -/
theorem c4_hard_line_boundary (name : String) (body fm : List String)
    (hmark : endsWithMarker name = true) :
    (fm.length + body.length = MAX_LINES →
      (skillLength name body fm).filter
        (fun d => d.check.isLineCount && d.severity.isError) = []) ∧
    (fm.length + body.length = MAX_LINES + 1 →
      (skillLength name body fm).filter
        (fun d => d.check.isLineCount && d.severity.isError) =
        [lineHardDiag (MAX_LINES + 1) MAX_LINES] ∧
      listContains ("(max: " ++ toString MAX_LINES ++ ")").toList
        (lineHardDiag (MAX_LINES + 1) MAX_LINES).detail.toList = true) := by
  have e2 : (wordLimitCheck MAX_WORDS WARNING_WORDS (wordCount body)).filter
      (fun d => d.check.isLineCount && d.severity.isError) = [] := by
    rw [List.filter_eq_nil_iff]
    intro d hd
    simp [wordLimitCheck_not_lineCount _ _ _ d hd]
  constructor
  · intro ht
    have e1 : lineLimitCheck MAX_LINES WARNING_LINES (fm.length + body.length) =
        [lineSoftDiag (fm.length + body.length) WARNING_LINES] := by
      unfold lineLimitCheck
      rw [if_neg (by omega), if_pos (by rw [ht]; decide)]
    simp only [skillLength, skillLengthLimits, hmark, if_true, List.filter_append, e1, e2]
    simp [lineSoftDiag, Check.isLineCount, Diagnostic.severity, Check.severity, Severity.isError]
  · intro ht
    have e1 : lineLimitCheck MAX_LINES WARNING_LINES (fm.length + body.length) =
        [lineHardDiag (MAX_LINES + 1) MAX_LINES] := by
      unfold lineLimitCheck
      rw [ht, if_pos (by decide)]
    refine ⟨?_, by decide⟩
    simp only [skillLength, skillLengthLimits, hmark, if_true, List.filter_append, e1, e2]
    simp [lineHardDiag, Check.isLineCount, Diagnostic.severity, Check.severity, Severity.isError]

/-- Witness for C4: a 500-line document produces no line-count error; a
501-line document produces exactly the hard-limit error. -/
theorem c4_hard_line_boundary_witness :
    (endsWithMarker "skills/foo/SKILL.md" = true ∧
     (List.replicate 4 "x").length + (List.replicate 496 "y").length = MAX_LINES ∧
     (skillLength "skills/foo/SKILL.md" (List.replicate 496 "y")
        (List.replicate 4 "x")).filter
        (fun d => d.check.isLineCount && d.severity.isError) = []) ∧
    ((List.replicate 4 "x").length + (List.replicate 497 "y").length = MAX_LINES + 1 ∧
     (skillLength "skills/foo/SKILL.md" (List.replicate 497 "y")
        (List.replicate 4 "x")).filter
        (fun d => d.check.isLineCount && d.severity.isError) =
        [lineHardDiag (MAX_LINES + 1) MAX_LINES]) :=
  ⟨⟨by decide, by simp [MAX_LINES],
    (c4_hard_line_boundary "skills/foo/SKILL.md" (List.replicate 496 "y")
      (List.replicate 4 "x") (by decide)).1 (by simp [MAX_LINES])⟩,
   ⟨by simp [MAX_LINES],
    ((c4_hard_line_boundary "skills/foo/SKILL.md" (List.replicate 497 "y")
      (List.replicate 4 "x") (by decide)).2 (by simp [MAX_LINES])).1⟩⟩

/-- C1: a checked document with nonempty frontmatter whose extracted
name satisfies every name constraint (kebab-case, at most 64
characters, no reserved words, no consecutive hyphens, no XML tags,
equal to the containing directory name), whose extracted description
satisfies every description constraint (20 to 1024 characters, no XML
tags), and whose total line count and word count are at or under the
soft limits, yields an empty diagnostic sequence from both rules. -/
theorem c1_round_trip (name : String) (body fm : List String)
    (hmark : endsWithMarker name = true) (hfm : fm ≠ [])
    (nm d : String)
    (hn : extractedName (fmStream fm) = some nm)
    (hk : isKebab nm = true) (hlen : nm.length ≤ 64)
    (hres : hasReserved nm = false) (hhyp : hasDoubleHyphen nm.toList = false)
    (hxml : hasXmlTag nm.toList = false) (hdir : nm = parentDirName name)
    (hd : extractedDescription (fmStream fm) = some d)
    (hd1 : 20 ≤ d.length) (hd2 : d.length ≤ 1024) (hdx : hasXmlTag d.toList = false)
    (hl : fm.length + body.length ≤ WARNING_LINES)
    (hw : wordCount body ≤ WARNING_WORDS) :
    skillLength name body fm = [] ∧ skillFrontmatter name fm = [] := by
  have hl' : fm.length + body.length ≤ 300 := hl
  have hw' : wordCount body ≤ 5000 := hw
  constructor
  · have e1 : lineLimitCheck MAX_LINES WARNING_LINES (fm.length + body.length) = [] := by
      show lineLimitCheck 500 300 (fm.length + body.length) = []
      unfold lineLimitCheck
      rw [if_neg (by omega), if_neg (by omega)]
    have e2 : wordLimitCheck MAX_WORDS WARNING_WORDS (wordCount body) = [] := by
      show wordLimitCheck 8000 5000 (wordCount body) = []
      unfold wordLimitCheck
      rw [if_neg (by omega), if_neg (by omega)]
    simp [skillLength, skillLengthLimits, hmark, e1, e2]
  · have hfm0 : ¬ fm.length = 0 := fun h => hfm (by simpa using h)
    have hhyp' : hasDoubleHyphen nm.data = false := hhyp
    have hxml' : hasXmlTag nm.data = false := hxml
    have hdx' : hasXmlTag d.data = false := hdx
    have e3 : nameChecks nm (parentDirName name) = [] := by
      unfold nameChecks
      rw [if_pos hk, if_neg (by omega), if_neg (by simp [hres]),
        if_neg (by simp [hhyp']), if_neg (by simp [hxml']), if_pos hdir]
      rfl
    have e4 : descChecks d = [] := by
      unfold descChecks
      rw [if_neg (by omega), if_neg (by omega), if_neg (by simp [hdx'])]
      rfl
    unfold skillFrontmatter
    rw [if_pos hmark, if_neg hfm0, hn, hd]
    simp [namePart, descPart, e3, e4]

/-- Witness for C1 at a fully constraint-satisfying concrete document. -/
theorem c1_round_trip_witness :
    extractedName (fmStream ["---", "name: my-skill",
      "description: a useful skill for testing things", "---"]) = some "my-skill" ∧
    extractedDescription (fmStream ["---", "name: my-skill",
      "description: a useful skill for testing things", "---"]) =
      some "a useful skill for testing things" ∧
    "my-skill" = parentDirName "skills/my-skill/SKILL.md" ∧
    (skillLength "skills/my-skill/SKILL.md" ["# My Skill", "", "Does useful things."]
      ["---", "name: my-skill", "description: a useful skill for testing things", "---"] = [] ∧
     skillFrontmatter "skills/my-skill/SKILL.md"
      ["---", "name: my-skill", "description: a useful skill for testing things", "---"] = []) :=
  ⟨by decide, by decide, by decide,
   c1_round_trip "skills/my-skill/SKILL.md" ["# My Skill", "", "Does useful things."]
     ["---", "name: my-skill", "description: a useful skill for testing things", "---"]
     (by decide) (by decide) "my-skill" "a useful skill for testing things"
     (by decide) (by decide) (by decide) (by decide) (by decide) (by decide) (by decide)
     (by decide) (by decide) (by decide) (by decide) (by decide) (by decide)⟩

/-- C2, counterexample: at a concrete checked document whose name field
value is `ab--cd<x>` but whose containing directory is named `foo`, the
frontmatter rule produces four name-related diagnostics (kebab-case,
consecutive hyphens, XML tag, directory mismatch), not exactly three as
the claim states. -/
theorem c2_counterexample_four_diags :
    ((skillFrontmatter "skills/foo/SKILL.md"
      ["---", "name: ab--cd<x>", "description: a sufficiently long description here",
       "---"]).filter (fun d => d.check.isNameCheck)).length = 4 ∧
    ((skillFrontmatter "skills/foo/SKILL.md"
      ["---", "name: ab--cd<x>", "description: a sufficiently long description here",
       "---"]).filter (fun d => d.check.isNameCheck)).length ≠ 3 := by
  constructor
  · decide
  · decide

/-- C2 as amended: a checked document whose extracted name is
`ab--cd<x>` produces the kebab-case, consecutive-hyphen and XML-tag
diagnostics (each check firing independently), plus a
directory-mismatch diagnostic exactly when the containing directory
name differs from the name value — so exactly three name-related
diagnostics when they coincide, four otherwise. -/
theorem c2_amended_name_diags (name : String) (fm : List String)
    (hmark : endsWithMarker name = true) (hfm : fm ≠ [])
    (hn : extractedName (fmStream fm) = some "ab--cd<x>") :
    (skillFrontmatter name fm).filter (fun d => d.check.isNameCheck) =
      [kebabDiag "ab--cd<x>", hyphenDiag "ab--cd<x>", xmlNameDiag "ab--cd<x>"] ++
      (if "ab--cd<x>" = parentDirName name then []
       else [dirMismatchDiag "ab--cd<x>" (parentDirName name)]) := by
  have hfm0 : ¬ fm.length = 0 := fun h => hfm (by simpa using h)
  unfold skillFrontmatter
  rw [if_pos hmark, if_neg hfm0, hn]
  rw [List.filter_append, descPart_filter_nameCheck, List.append_nil]
  simp only [namePart]
  unfold nameChecks
  rw [if_neg (by decide), if_neg (by decide), if_neg (by decide),
    if_pos (by decide), if_pos (by decide)]
  by_cases hdir : "ab--cd<x>" = parentDirName name <;>
    simp [hdir, kebabDiag, hyphenDiag, xmlNameDiag, dirMismatchDiag, Check.isNameCheck]

/-- Witness for the amended C2 at a document whose directory is named
`ab--cd<x>`: exactly the three format diagnostics result. -/
theorem c2_amended_name_diags_witness :
    endsWithMarker "sk/ab--cd<x>/SKILL.md" = true ∧
    extractedName (fmStream ["---", "name: ab--cd<x>",
      "description: a sufficiently long description here", "---"]) = some "ab--cd<x>" ∧
    (skillFrontmatter "sk/ab--cd<x>/SKILL.md"
      ["---", "name: ab--cd<x>", "description: a sufficiently long description here",
       "---"]).filter (fun d => d.check.isNameCheck) =
      [kebabDiag "ab--cd<x>", hyphenDiag "ab--cd<x>", xmlNameDiag "ab--cd<x>"] :=
  ⟨by decide, by decide,
   (c2_amended_name_diags "sk/ab--cd<x>/SKILL.md"
     ["---", "name: ab--cd<x>", "description: a sufficiently long description here", "---"]
     (by decide) (by decide) (by decide)).trans (by decide)⟩

/-- C7: a checked document whose extracted name is `claude-helper`
receives the reserved-word diagnostic (case-insensitive whole-word
match) even though the name passes the kebab-case check. -/
theorem c7_reserved_word (name : String) (fm : List String)
    (hmark : endsWithMarker name = true) (hfm : fm ≠ [])
    (hn : extractedName (fmStream fm) = some "claude-helper") :
    isKebab "claude-helper" = true ∧ hasReserved "claude-helper" = true ∧
    reservedDiag "claude-helper" ∈ skillFrontmatter name fm := by
  refine ⟨by decide, by decide, ?_⟩
  have hfm0 : ¬ fm.length = 0 := fun h => hfm (by simpa using h)
  unfold skillFrontmatter
  rw [if_pos hmark, if_neg hfm0, hn]
  apply List.mem_append_left
  simp only [namePart]
  unfold nameChecks
  rw [if_pos (by decide), if_neg (by decide), if_pos (by decide),
    if_neg (by decide), if_neg (by decide)]
  simp

/-- Witness for C7 at a concrete document named `claude-helper`. -/
theorem c7_reserved_word_witness :
    endsWithMarker "sk/claude-helper/SKILL.md" = true ∧
    extractedName (fmStream ["---", "name: claude-helper",
      "description: a sufficiently long description here", "---"]) = some "claude-helper" ∧
    (isKebab "claude-helper" = true ∧ hasReserved "claude-helper" = true ∧
     reservedDiag "claude-helper" ∈ skillFrontmatter "sk/claude-helper/SKILL.md"
       ["---", "name: claude-helper",
        "description: a sufficiently long description here", "---"]) :=
  ⟨by decide, by decide,
   c7_reserved_word "sk/claude-helper/SKILL.md"
     ["---", "name: claude-helper", "description: a sufficiently long description here", "---"]
     (by decide) (by decide) (by decide)⟩

/-- C8: at the block-scalar frontmatter
`description: >` / `  line one` / `  line two` / `name: x`, the code
extracts `"line one"` — only the first continuation line — and not the
claimed `"line one line two"`: under the multiline flag the `$` of the
lookahead `(?=\n[a-z-]+:|$)` matches at the end of the first
continuation line, so the lazy capture stops there and the
`replace(/\n\s*/g, " ")` join never sees a second line. -/
theorem c8_multiline_extraction :
    extractedDescription (fmStream ["---", "description: >", "  line one",
      "  line two", "name: x", "---"]) = some "line one" ∧
    extractedDescription (fmStream ["---", "description: >", "  line one",
      "  line two", "name: x", "---"]) ≠ some "line one line two" := by
  constructor
  · decide
  · decide

/-- C9: when the frontmatter's last line is a bare `description: >`
header (no following lines at all), the block-scalar pattern fails (it
needs a newline after the `>`), the single-line pattern matches with
value `">"`, and the rule emits a too-short diagnostic for length 1
instead of a missing-description diagnostic. -/
theorem c9_bare_block_header (name : String) (fm : List String)
    (pre : List (List Char))
    (hmark : endsWithMarker name = true) (hfm : fm ≠ [])
    (hstream : fmStream fm = pre ++ ["description: >".toList])
    (hpre : ∀ l ∈ pre, descKey.isPrefixOf l = false) :
    extractedDescription (fmStream fm) = some ">" ∧
    descShortDiag 1 ∈ skillFrontmatter name fm ∧
    missingDescriptionDiag ∉ skillFrontmatter name fm := by
  have hfm0 : ¬ fm.length = 0 := fun h => hfm (by simpa using h)
  have hb : findBlock (fmStream fm) = none := by
    rw [hstream, findBlock_skip pre _ hpre]
    decide
  have hks : findKey descKey (fmStream fm) = some ">" := by
    rw [hstream, findKey_skip descKey pre _ hpre]
    decide
  have hdesc : extractedDescription (fmStream fm) = some ">" := by
    unfold extractedDescription
    rw [hb, hks]
    decide
  refine ⟨hdesc, ?_, ?_⟩
  · unfold skillFrontmatter
    rw [if_pos hmark, if_neg hfm0, hdesc]
    exact List.mem_append_right _ (by decide)
  · unfold skillFrontmatter
    rw [if_pos hmark, if_neg hfm0, hdesc]
    intro hmem
    rcases List.mem_append.mp hmem with h | h
    · cases ho : extractedName (fmStream fm) with
      | none =>
        rw [ho] at h
        simp only [namePart, List.mem_singleton] at h
        exact absurd h (by decide)
      | some nm =>
        rw [ho] at h
        simp only [namePart] at h
        have hc := mem_nameChecks_isNameCheck nm (parentDirName name) _ h
        simp [missingDescriptionDiag, Check.isNameCheck] at hc
    · exact absurd h (by decide)

/-- Witness for C9 at a concrete document whose frontmatter ends with a
bare `description: >`. -/
theorem c9_bare_block_header_witness :
    fmStream ["---", "name: x", "description: >", "---"] =
      ["name: x".toList] ++ ["description: >".toList] ∧
    (extractedDescription (fmStream ["---", "name: x", "description: >", "---"]) = some ">" ∧
     descShortDiag 1 ∈ skillFrontmatter "sk/x/SKILL.md"
       ["---", "name: x", "description: >", "---"] ∧
     missingDescriptionDiag ∉ skillFrontmatter "sk/x/SKILL.md"
       ["---", "name: x", "description: >", "---"]) :=
  ⟨by decide,
   c9_bare_block_header "sk/x/SKILL.md" ["---", "name: x", "description: >", "---"]
     ["name: x".toList] (by decide) (by decide) (by decide)
     (by intro l hl; simp at hl; subst hl; decide)⟩

/-- C10: quote stripping removes at most one leading and one trailing
quote character, even when mismatched; consequently a name field whose
value is an empty quoted string strips to the empty name, which
receives an invalid-kebab-case diagnostic rather than a missing-name
diagnostic. -/
theorem c10_quote_stripping :
    (∀ (c₁ c₂ : Char) (mid : List Char), isQuoteChar c₁ = true → isQuoteChar c₂ = true →
      stripQuotes (String.mk (c₁ :: (mid ++ [c₂]))) = String.mk mid) ∧
    stripQuotes (String.mk [squote, squote]) = "" ∧
    stripQuotes "\"\"" = "" ∧
    (∀ (name : String) (fm : List String), endsWithMarker name = true → fm ≠ [] →
      findKey nameKey (fmStream fm) = some "\"\"" →
      extractedName (fmStream fm) = some "" ∧
      kebabDiag "" ∈ skillFrontmatter name fm ∧
      missingNameDiag ∉ skillFrontmatter name fm) := by
  refine ⟨?_, by decide, by decide, ?_⟩
  · intro c₁ c₂ mid h1 h2
    show String.mk ((dropLeadQuote ((dropLeadQuote (c₁ :: (mid ++ [c₂]))).reverse)).reverse) =
      String.mk mid
    simp [dropLeadQuote, h1, h2]
  · intro name fm hmark hfm hraw
    have hfm0 : ¬ fm.length = 0 := fun h => hfm (by simpa using h)
    have hname : extractedName (fmStream fm) = some "" := by
      unfold extractedName
      rw [hraw]
      decide
    refine ⟨hname, ?_, ?_⟩
    · unfold skillFrontmatter
      rw [if_pos hmark, if_neg hfm0, hname]
      apply List.mem_append_left
      simp only [namePart]
      unfold nameChecks
      rw [if_neg (by decide)]
      simp
    · unfold skillFrontmatter
      rw [if_pos hmark, if_neg hfm0, hname]
      intro hmem
      rcases List.mem_append.mp hmem with h | h
      · simp only [namePart] at h
        have hc := mem_nameChecks_isNameCheck "" (parentDirName name) _ h
        simp [missingNameDiag, Check.isNameCheck] at hc
      · rcases mem_descPart_check _ _ h with h' | h' | h' | h' <;>
          simp [missingNameDiag] at h'

/-- Witness for C10: a mismatched quote pair is stripped, and a
concrete document with `name: ""` receives the kebab-case diagnostic
and no missing-name diagnostic. -/
theorem c10_quote_stripping_witness :
    (isQuoteChar squote = true ∧ isQuoteChar '"' = true ∧
     stripQuotes (String.mk (squote :: ("ab".toList ++ ['"']))) = String.mk "ab".toList) ∧
    (endsWithMarker "sk/x/SKILL.md" = true ∧
     findKey nameKey (fmStream ["---", "name: \"\"",
       "description: a sufficiently long description here", "---"]) = some "\"\"" ∧
     (extractedName (fmStream ["---", "name: \"\"",
        "description: a sufficiently long description here", "---"]) = some "" ∧
      kebabDiag "" ∈ skillFrontmatter "sk/x/SKILL.md"
        ["---", "name: \"\"", "description: a sufficiently long description here", "---"] ∧
      missingNameDiag ∉ skillFrontmatter "sk/x/SKILL.md"
        ["---", "name: \"\"", "description: a sufficiently long description here", "---"])) :=
  ⟨⟨by decide, by decide,
    c10_quote_stripping.1 squote '"' "ab".toList (by decide) (by decide)⟩,
   ⟨by decide, by decide,
    c10_quote_stripping.2.2.2 "sk/x/SKILL.md"
      ["---", "name: \"\"", "description: a sufficiently long description here", "---"]
      (by decide) (by decide) (by decide)⟩⟩

end SkillLint
